import Mathlib

set_option linter.unusedVariables false

/-!
SoapyPlutoSDR streaming engine (`PlutoSDR_Streaming.cpp`)

A shallow embedding of `rx_streamer` and `tx_streamer`.

* Machine integers are `Int`/`Nat` with explicit wrap-around at the C++ width.
* `float` samples are carried by their exact rational value.  Every float the
  receive path produces is `k * 2^-11` with `-2048 <= k <= 2047`, and the only
  float operations of the engine are the conversion of such a `k` and a
  multiplication by a power of two, all of which are exact in binary32.
* The mutex and the two condition variables are modelled at lock granularity:
  a blocked `wait_for` is a point where the refill thread runs a list of its
  own critical sections (`ThreadStep`).
-/

namespace PlutoSDR

/-! ## Machine integers -/

/-- Conversion of an integer to `int16_t` (two's complement wrap). -/
def to_int16 (v : Int) : Int := (v + 32768) % 65536 - 32768

/-- Conversion of an integer to `int8_t` (two's complement wrap). -/
def to_int8 (v : Int) : Int := (v + 128) % 256 - 128

/-- Conversion of an `int` to `size_t` (64-bit): reduction modulo `2^64`. -/
def to_size_t (v : Int) : Nat := (v % 18446744073709551616).toNat

/-- Bit pattern of an `int` (32-bit two's complement) as a natural number. -/
def int_bits (v : Int) : Nat := (v % 4294967296).toNat

/-- Predicate: `x` is a value of type `int16_t`. -/
def is_int16 (x : Int) : Prop := -32768 ≤ x ∧ x ≤ 32767

/-- Predicate: `x` is representable in twelve bits (two's complement). -/
def is_int12 (x : Int) : Prop := -2048 ≤ x ∧ x ≤ 2047

instance is_int16_decidable (x : Int) : Decidable (is_int16 x) := by
  unfold is_int16
  infer_instance

instance is_int12_decidable (x : Int) : Decidable (is_int12 x) := by
  unfold is_int12
  infer_instance

/-! ## Sample converter -/

/-- The constant `scale = 1.0f / 2048.0f` of the constructor. -/
def scale : ℚ := 1 / 2048

/-- Right-hand side of `lut[i] = (((i + 2048) % 4096) - 2048) * scale`. -/
def lut_entry (i : Nat) : ℚ := ((((i : Int) + 2048) % 4096 - 2048 : Int) : ℚ) * scale

/-- The loop `for (int i = 0; i < 4096; ++i) lut[i] = ...`: the content of the
member array `float lut[4096]` once the loop has assigned every element. -/
def build_lut : List ℚ := (List.range 4096).map lut_entry

/-- The index expression `buffer[j] & 0x0FFF`: the `int16_t` is promoted to `int`
and masked. -/
def lut_index (x : Int) : Nat := int_bits x &&& 0x0FFF

/-- Receive, CF32: `lut[buffer[j] & 0x0FFF]`. -/
def native_to_cf32 (lut : List ℚ) (x : Int) : ℚ := lut.getD (lut_index x) 0

/-- Receive, CS8: `buffer[j] >> 4` stored into an `int8_t`. -/
def native_to_cs8 (x : Int) : Int := to_int8 (x >>> (4 : Nat))

/-- Receive, CS16: `samples_cs16[..] = buffer[j]`. -/
def native_to_cs16 (x : Int) : Int := x

/-- Transmit, CS16: `buffer[j] = samples_cs16[..]`. -/
def cs16_to_native (v : Int) : Int := v

/-- Transmit, CF32: `(int16_t)(samples_cf32[..] * 2048)`.  The product is rounded
toward zero; a value outside `int16_t` wraps. -/
def cf32_to_native (f : ℚ) : Int := to_int16 (Int.tdiv (f * 2048).num (f * 2048).den)

/-- Transmit, CS8: `(int16_t)(samples_cs8[..] << 4)`. -/
def cs8_to_native (v : Int) : Int := to_int16 (v <<< 4)

/-- The twelve low bits of `x` read as a two's-complement number. -/
def low12_signed (x : Int) : Int := if x % 4096 < 2048 then x % 4096 else x % 4096 - 4096

/-- Receive CS8 conversion followed by the transmit CS8 conversion. -/
def cs8_round_trip (x : Int) : Int := cs8_to_native (native_to_cs8 x)

/-! ## Data model -/

/-- The stream format string, compared by the engines against `SOAPY_SDR_CS8`,
`SOAPY_SDR_CS16` and `SOAPY_SDR_CF32`; `other` stands for any other string. -/
inductive Format where
  | CS8
  | CS16
  | CF32
  | other
  deriving DecidableEq, Repr

/-- One element of a caller buffer, typed by the pointer cast the engine applies
to `buffs[index]` before the access. -/
inductive Wire where
  | s8 (v : Int)
  | s16 (v : Int)
  | f32 (q : ℚ)
  deriving DecidableEq, Repr

/-- Caller buffers `buffs`: buffer number, then element number. -/
abbrev Buffs := Nat → Nat → Wire

/-- Read through an `int8_t *` view. -/
def Wire.as_s8 : Wire → Int
  | .s8 v => v
  | _ => 0

/-- Read through an `int16_t *` view. -/
def Wire.as_s16 : Wire → Int
  | .s16 v => v
  | _ => 0

/-- Read through a `float *` view. -/
def Wire.as_f32 : Wire → ℚ
  | .f32 q => q
  | _ => 0

/-- Assignment `buffs[index][pos] = w`. -/
def Buffs.store (buffs : Buffs) (index pos : Nat) (w : Wire) : Buffs :=
  Function.update buffs index (Function.update (buffs index) pos w)

/-- The library object behind `iio_buffer *`, seen through the calls the engines
make: `iio_buffer_step`, `iio_buffer_first`, `iio_buffer_end`, and the
host-format sample `iio_channel_convert` reads (or `iio_channel_convert_inverse`
writes) at an address. -/
structure IioBuffer where
  samples_count : Nat
  step : Nat
  first : Nat → Nat
  buf_end : Nat
  mem : Nat → Int

/-- Exceptions raised by the engines and by the standard library calls they make. -/
inductive Exn where
  | runtime_error (msg : String)
  | invalid_argument
  | out_of_range
  | length_error
  /-- not an exception: a library call on a null `buf`, which is undefined -/
  | null_buffer
  /-- not an exception: `std::terminate`, on assigning to a joinable `std::thread` -/
  | terminate
  deriving DecidableEq, Repr

/-- Control point of `refill_thread` at the moments it does not hold the mutex;
`not_started` is a `refill_thd` that holds no thread. -/
inductive ThreadPc where
  | not_started
  | waiting
  | refilling
  | exited
  deriving DecidableEq, Repr

/-- Members of `rx_streamer`, with the control point of `refill_thd`. -/
structure RxState where
  buffer_size : Nat
  buf : Option IioBuffer
  byte_offset : Nat
  items_in_buffer : Nat
  please_refill_buffer : Bool
  thread_stopped : Bool
  channel_list : List Nat
  format : Format
  buffer : List Int
  lut : List ℚ
  refill_thd : ThreadPc

/-- Value returned by `recv`: the code `SOAPY_SDR_TIMEOUT` or a sample count. -/
inductive RecvReturn where
  | timeout
  | items (n : Nat)
  deriving DecidableEq, Repr

/-- Modelled from the spec: the macro `PLUTOSDR_DEFAULT_BUFFER_SIZE` of the
header `SoapyPlutoSDR.hpp`, the documented default depth. -/
def PLUTOSDR_DEFAULT_BUFFER_SIZE : Nat := 16384

/-- The value `sizeof(int16_t)`, also `iio_channel_get_data_format(chn)->length / 8` for the
16-bit hardware-native sample. -/
def sample_length : Nat := 2

/-- The call `iio_buffer_step(buf)`. -/
def buf_step (buf : Option IioBuffer) : Nat :=
  match buf with
  | some b => b.step
  | none => 0

/-- The call `std::vector<int16_t>::resize(n)`. -/
def vec_resize (v : List Int) (n : Nat) : List Int :=
  v.take n ++ List.replicate (n - v.length) 0

/-- The value of `std::vector<int16_t>::max_size()` on a 64-bit target. -/
def vec_max_size : Nat := 4611686018427387903

/-- The call `std::vector<int16_t>::reserve(n)`: raises `length_error` above `max_size()`. -/
def vec_reserve (n : Nat) : Except Exn Unit :=
  if n > vec_max_size then .error .length_error else .ok ()

/-! ## Receive engine -/

/-- The `for` loop of `rx_streamer::channel_read`, `dst` counted in bytes from
`buffer.data()`.  The counter `fuel` bounds the number of iterations; see
`channel_read_loop_fuel` for the bound that makes it irrelevant. -/
def channel_read_loop (b : IioBuffer) (end_ : Nat) : Nat → Nat → Nat → List Int → List Int
  | 0, _, _, stg => stg
  | fuel + 1, src, dst, stg =>
    if src < b.buf_end ∧ dst + sample_length ≤ end_ then
      channel_read_loop b end_ fuel (src + b.step) (dst + sample_length)
        (stg.set (dst / sample_length) (b.mem src))
    else stg

/-- Function `rx_streamer::channel_read(chn, dst, len)` with `dst = buffer.data()`.
With a null `buf` nothing is read. -/
def channel_read (buf : Option IioBuffer) (byte_offset : Nat) (chn : Nat)
    (stg : List Int) (len : Nat) : List Int :=
  match buf with
  | some b => channel_read_loop b len (len + 1) (b.first chn + byte_offset) 0 stg
  | none => stg

/-- Outcome of one `cond2.wait_for` as `std::cv_status`. -/
inductive CvStatus where
  | no_timeout
  | timeout
  deriving DecidableEq, Repr

/-- A critical section of `refill_thread`, from taking the mutex to releasing it. -/
inductive ThreadStep where
  /-- leaves `cond.wait` with the request flag set, clears it and enters
  `iio_buffer_refill` -/
  | take_request
  /-- the call `iio_buffer_refill` returns `ret`; `filled` is the buffer as refilled -/
  | refill_returns (ret : Int) (filled : IioBuffer)

/-- Effect of one critical section of `refill_thread` on the engine. A section
that the thread's control point does not allow leaves the state as it is. -/
def thread_step (s : RxState) : ThreadStep → RxState
  | .take_request =>
    if s.refill_thd = .waiting ∧ s.please_refill_buffer = true then
      { s with please_refill_buffer := false, refill_thd := .refilling }
    else s
  | .refill_returns ret filled =>
    if s.refill_thd = .refilling then
      if ret < 0 then
        { s with thread_stopped := true, refill_thd := .exited }
      else
        let s1 := { s with buf := some filled,
                           items_in_buffer := ret.toNat / filled.step,
                           byte_offset := 0 }
        if s1.please_refill_buffer = true then { s1 with please_refill_buffer := false }
        else { s1 with refill_thd := .waiting }
    else s

/-- What happens while `recv` is inside one `cond2.wait_for`: the critical
sections the refill thread runs, and how the wait ended. -/
structure Wait where
  status : CvStatus
  steps : List ThreadStep

/-- Result of the loop `while (please_refill_buffer)` of `recv`. -/
inductive WaitOutcome where
  /-- the loop was left with the flag clear -/
  | ready (s : RxState)
  /-- the flag `thread_stopped` was observed after a wait -/
  | stopped (s : RxState)
  /-- the flag is still set after the last wait of the schedule -/
  | blocked

/-- The loop `while (please_refill_buffer) { cond2.wait_for(..); if (thread_stopped)
return SOAPY_SDR_TIMEOUT; }`.  The value `wait_for` returns is not used. -/
def wait_loop (s : RxState) : List Wait → WaitOutcome
  | [] => if s.please_refill_buffer = true then .blocked else .ready s
  | w :: ws =>
    if s.please_refill_buffer = true then
      let s1 := w.steps.foldl thread_step s
      if s1.thread_stopped = true then .stopped s1 else wait_loop s1 ws
    else .ready s

/-- The state in which the wait loop was left, `d` if it was not left that way. -/
def wait_ready (o : WaitOutcome) (d : RxState) : RxState :=
  match o with
  | .ready s => s
  | _ => d

/-- The conversion and store of sample `j` of channel position `i` in `recv`. -/
def recv_store (format : Format) (lut : List ℚ) (buffer : List Int) (i : Nat)
    (buffs : Buffs) (j : Nat) : Buffs :=
  match format with
  | .CS16 => buffs.store (i / 2) (j * 2 + i) (.s16 (native_to_cs16 (buffer.getD j 0)))
  | .CF32 => buffs.store (i / 2) (j * 2 + i) (.f32 (native_to_cf32 lut (buffer.getD j 0)))
  | .CS8 => buffs.store (i / 2) (j * 2 + i) (.s8 (native_to_cs8 (buffer.getD j 0)))
  | .other => buffs

/-- Body of the channel loop of `recv` for position `i` of `channel_list`. -/
def recv_channel (s : RxState) (items : Nat) (acc : List Int × Buffs) (ic : Nat × Nat) :
    List Int × Buffs :=
  let buffer := channel_read s.buf s.byte_offset ic.2 acc.1 (items * sample_length)
  (buffer, (List.range items).foldl (recv_store s.format s.lut buffer ic.1) acc.2)

/-- The part of `recv` after the wait: copy, convert, advance the cursor. -/
def recv_copy (s : RxState) (buffs : Buffs) (numElems : Nat) : RecvReturn × RxState × Buffs :=
  let items := min s.items_in_buffer numElems
  let r := s.channel_list.enum.foldl (recv_channel s items) (vec_resize s.buffer items, buffs)
  (.items items,
   { s with buffer := r.1,
            items_in_buffer := s.items_in_buffer - items,
            byte_offset := s.byte_offset + items * buf_step s.buf },
   r.2)

/-- The refill request at the head of `recv`. -/
def recv_request (s : RxState) : RxState :=
  if s.please_refill_buffer = false ∧ s.items_in_buffer = 0 then
    { s with please_refill_buffer := true }
  else s

/-- Function `rx_streamer::recv`.  `waits` is what happens during the successive
`wait_for` calls; `none` means the call is still blocked at the end of `waits`. -/
def recv (s : RxState) (buffs : Buffs) (numElems : Nat) (timeoutUs : Int)
    (waits : List Wait) : Option (RecvReturn × RxState × Buffs) :=
  if s.thread_stopped = true then some (.timeout, s, buffs)
  else
    match wait_loop (recv_request s) waits with
    | .blocked => none
    | .stopped s1 => some (.timeout, s1, buffs)
    | .ready s1 => some (recv_copy s1 buffs numElems)

/-- Function `rx_streamer::start`; `created` is what `iio_device_create_buffer`
returns.  The spawned thread finds the flag clear and sleeps in `cond.wait`;
assigning it to a `refill_thd` that still holds a thread terminates the program. -/
def start (s : RxState) (created : Option IioBuffer) : Except Exn RxState :=
  let s1 := { s with items_in_buffer := 0, please_refill_buffer := false,
                     thread_stopped := false, buf := created }
  match created with
  | some _ =>
    if s.refill_thd = .not_started then .ok { s1 with refill_thd := .waiting }
    else .error .terminate
  | none => .error (.runtime_error "Unable to create buffer!\n")

/-- Function `rx_streamer::get_buffer_size`. -/
def get_buffer_size (s : RxState) : Nat := s.buffer_size

/-- Function `rx_streamer::set_buffer_size`; `created` is what
`iio_device_create_buffer(dev, _buffer_size, false)` returns if it is called. -/
def set_buffer_size (s : RxState) (_buffer_size : Nat) (created : Option IioBuffer) :
    Except Exn RxState :=
  if s.buf.isSome ∧ s.buffer_size ≠ _buffer_size then
    match created with
    | some b => .ok { s with buf := some b, buffer_size := _buffer_size }
    | none => .error (.runtime_error "Unable to create buffer!\n")
  else .ok { s with buffer_size := _buffer_size }

/-- Function `rx_streamer::reset_buffer`; `created` is what
`iio_device_create_buffer(dev, buffer_size, false)` returns if it is called. -/
def reset_buffer (s : RxState) (created : Option IioBuffer) : Except Exn RxState :=
  if s.buf.isSome then
    match created with
    | some b => .ok { s with buf := some b, items_in_buffer := 0, please_refill_buffer := false }
    | none => .error (.runtime_error "Unable to create buffer!\n")
  else .ok s

/-! ## Construction of the receive engine -/

/-- The type `SoapySDR::Kwargs`, a `std::map<std::string, std::string>`. -/
abbrev Kwargs := List (String × String)

/-- The call `args.count(key)` for a map: 0 or 1. -/
def Kwargs.count (args : Kwargs) (key : String) : Nat :=
  if (args.lookup key).isSome then 1 else 0

/-- The call `args.at(key)`, used only after `count` has found the key. -/
def Kwargs.at (args : Kwargs) (key : String) : String :=
  (args.lookup key).getD ""

/-- The test `isspace` in the C locale: space and the characters 9 to 13. -/
def is_space (c : Char) : Bool := c.toNat = 32 || (9 ≤ c.toNat && c.toNat ≤ 13)

/-- Decimal digit test (characters 48 to 57). -/
def is_digit (c : Char) : Bool := 48 ≤ c.toNat && c.toNat ≤ 57

/-- Value of a run of decimal digits. -/
def digits_value (ds : List Char) : Nat :=
  ds.foldl (fun a c => a * 10 + (c.toNat - 48)) 0

/-- The call `std::stoi(str)` (base 10): leading white space is skipped, an optional sign
is read, then the longest run of digits; trailing characters are ignored.  No
digit raises `invalid_argument`; a value that does not fit `int` raises
`out_of_range`. -/
def stoi (str : String) : Except Exn Int :=
  let cs := str.toList.dropWhile is_space
  let neg := cs.head?.map Char.toNat = some 45
  let signed := cs.head?.map Char.toNat = some 45 ∨ cs.head?.map Char.toNat = some 43
  let rest := if signed then cs.tail else cs
  let ds := rest.takeWhile is_digit
  if ds = [] then .error .invalid_argument
  else
    let v : Int := if neg then -(digits_value ds : Int) else (digits_value ds : Int)
    if v < -2147483648 ∨ 2147483647 < v then .error .out_of_range else .ok v

/-- The `bufflen` block of the constructor: the `try` body with its single
handler `catch (const std::invalid_argument &)`, the `else` branch, and the
unconditional `buffer.reserve(buffer_size)` that follows. Returns the engine
with `buffer_size` set. -/
def rx_bufflen (s : RxState) (args : Kwargs) : Except Exn RxState :=
  (if args.count "bufflen" ≠ 0 then
    match stoi (args.at "bufflen") with
    | .ok v =>
      let bufferLength := to_size_t v
      if bufferLength > 0 then set_buffer_size s bufferLength none else .ok s
    | .error .invalid_argument => .ok s
    | .error e => .error e
  else set_buffer_size s PLUTOSDR_DEFAULT_BUFFER_SIZE none) >>= fun s1 =>
  vec_reserve s1.buffer_size >>= fun _ =>
  .ok { s1 with buffer := vec_resize s1.buffer s1.buffer_size }

/-- Constructor `rx_streamer::rx_streamer(_dev, _format, channels, args)`.
`dev` is `none` for a null device and otherwise gives
`iio_device_get_channels_count(dev)`.  A channel handle is the index passed to
`iio_device_get_channel`.  `flag0` and `stopped0` are the values of the two
members the constructor does not assign; `lut` is assigned only for CF32 and
read only for CF32. -/
def rx_streamer (dev : Option Nat) (_format : Format) (channels : List Nat) (args : Kwargs)
    (flag0 stopped0 : Bool) : Except Exn RxState :=
  match dev with
  | none => .error (.runtime_error "cf-ad9361-lpc not found!")
  | some nb_channels =>
    let s0 : RxState :=
      { buffer_size := 16384, buf := none, byte_offset := 0, items_in_buffer := 0,
        please_refill_buffer := flag0, thread_stopped := stopped0,
        channel_list :=
          if channels.isEmpty then List.range nb_channels
          else List.range (channels.length * 2),
        format := .other, buffer := [], lut := [], refill_thd := .not_started }
    rx_bufflen s0 args >>= fun s1 =>
    .ok { s1 with format := _format,
                  lut := if _format = .CF32 then build_lut else s1.lut }

/-- The exception a constructor call ends with, if any. -/
def rx_streamer_raises (r : Except Exn RxState) : Option Exn :=
  match r with
  | .ok _ => none
  | .error e => some e

/-- The engine constructed for CF32 on a two-channel device with no options. -/
def cf32_engine : RxState :=
  { buffer_size := 16384, buf := none, byte_offset := 0, items_in_buffer := 0,
    please_refill_buffer := false, thread_stopped := false, channel_list := [0, 1],
    format := .CF32, buffer := vec_resize [] 16384, lut := build_lut,
    refill_thd := .not_started }

/-! ## Transmit engine -/

/-- Members of `tx_streamer`. -/
structure TxState where
  buf : Option IioBuffer
  buffer : List Int
  channel_list : List Nat
  format : Format

/-- Value returned by `send`: the code `SOAPY_SDR_ERROR` or a sample count. -/
inductive SendReturn where
  | error
  | sent (n : Nat)
  deriving DecidableEq, Repr

/-- The `for` loop of `tx_streamer::channel_write`, `src` counted in bytes from
`buffer.data()`; `mem` is the content of the raw buffer.  The counter `fuel`
bounds the number of iterations; see `channel_write_loop_fuel`. -/
def channel_write_loop (b : IioBuffer) (stg : List Int) (end_ : Nat) :
    Nat → Nat → Nat → (Nat → Int) → (Nat → Int)
  | 0, _, _, mem => mem
  | fuel + 1, dst, src, mem =>
    if dst < b.buf_end ∧ src + sample_length ≤ end_ then
      channel_write_loop b stg end_ fuel (dst + b.step) (src + sample_length)
        (Function.update mem dst (stg.getD (src / sample_length) 0))
    else mem

/-- Function `tx_streamer::channel_write(chn, src, len)` with `src = buffer.data()`. -/
def channel_write (b : IioBuffer) (chn : Nat) (stg : List Int) (len : Nat) : IioBuffer :=
  { b with mem := channel_write_loop b stg len (len + 1) (b.first chn) 0 b.mem }

/-- The conversion loop `for (j < numElems) buffer[j] = conv(samples[j*2+i])` of
`send` for channel position `i`. -/
def send_convert (conv : Wire → Int) (buffs : Buffs) (numElems i : Nat)
    (buffer : List Int) : List Int :=
  (List.range numElems).foldl (fun stg j => stg.set j (conv (buffs (i / 2) (j * 2 + i)))) buffer

/-- Body of the channel loop of `send` for position `i` of `channel_list`: for
each of the three formats, the conversion loop into `buffer` and then
`channel_write`; nothing for any other format string. -/
def send_channel (format : Format) (buffs : Buffs) (numElems : Nat)
    (acc : List Int × IioBuffer) (ic : Nat × Nat) : List Int × IioBuffer :=
  match format with
  | .CS16 =>
    let buffer := send_convert (fun w => cs16_to_native w.as_s16) buffs numElems ic.1 acc.1
    (buffer, channel_write acc.2 ic.2 buffer (numElems * sample_length))
  | .CF32 =>
    let buffer := send_convert (fun w => cf32_to_native w.as_f32) buffs numElems ic.1 acc.1
    (buffer, channel_write acc.2 ic.2 buffer (numElems * sample_length))
  | .CS8 =>
    let buffer := send_convert (fun w => cs8_to_native w.as_s8) buffs numElems ic.1 acc.1
    (buffer, channel_write acc.2 ic.2 buffer (numElems * sample_length))
  | .other => acc

/-- Function `tx_streamer::send`.  `created` is what `iio_device_create_buffer`
returns if it is called, `pushed` what `iio_buffer_push` returns.  With a null
`buf` (possible only when `numElems` equals the size of a never-allocated
`buffer`) the library calls are undefined. -/
def send (s : TxState) (buffs : Buffs) (numElems : Nat) (created : Option IioBuffer)
    (pushed : Int) : Except Exn (SendReturn × TxState) :=
  (if s.buffer.length ≠ numElems then
    vec_reserve numElems >>= fun _ =>
    match created with
    | some b => .ok { s with buffer := vec_resize s.buffer numElems, buf := some b }
    | none => .error (.runtime_error "Unable to create buffer!")
  else .ok s) >>= fun s1 =>
  match s1.buf with
  | none => .error .null_buffer
  | some b =>
    let r := s1.channel_list.enum.foldl (send_channel s1.format buffs numElems) (s1.buffer, b)
    let s2 := { s1 with buffer := r.1, buf := some r.2 }
    if pushed < 0 then .ok (.error, s2)
    else .ok (.sent (pushed.toNat / r.2.step), s2)

/-! ## Sequences of `recv` calls -/

/-- The critical section is not the completion of a refill. -/
def ThreadStep.is_take_request : ThreadStep → Bool
  | .take_request => true
  | .refill_returns _ _ => false

/-- Every call of the sequence is made while samples of a batch of `n` remain
unconsumed (requested counts `ks`). -/
def samples_remain : Nat → List Nat → Prop
  | _, [] => True
  | n, k :: ks => 0 < n ∧ samples_remain (n - min n k) ks

instance samples_remain_decidable : (n : Nat) → (ks : List Nat) → Decidable (samples_remain n ks)
  | _, [] => isTrue trivial
  | n, k :: ks =>
    have : Decidable (samples_remain (n - min n k) ks) := samples_remain_decidable _ ks
    inferInstanceAs (Decidable (0 < n ∧ samples_remain (n - min n k) ks))

/-- The fields of the engine that the refill thread leaves alone as long as no
refill returns. -/
def same_data (s t : RxState) : Prop :=
  t.buf = s.buf ∧ t.items_in_buffer = s.items_in_buffer ∧ t.byte_offset = s.byte_offset ∧
  t.format = s.format ∧ t.channel_list = s.channel_list ∧ t.thread_stopped = s.thread_stopped

/-! ## Concrete engines used to evaluate the code -/

/-- A raw buffer of `n` samples for `k` enabled 16-bit channels: channel `c`
starts at byte `2 * c`, the step is `2 * k` bytes, and the sample stored at byte
address `a` is `100 + a`. -/
def raw_buffer (k n : Nat) : IioBuffer :=
  { samples_count := n, step := 2 * k, first := fun c => 2 * c, buf_end := 2 * k * n,
    mem := fun a => 100 + (a : Int) }

/-- A receive engine for CS16 on `k` hardware channels with depth 4, after
`start`: empty buffer, no request pending, refill thread asleep. -/
def started_engine (k : Nat) : RxState :=
  { buffer_size := 4, buf := some (raw_buffer k 4), byte_offset := 0, items_in_buffer := 0,
    please_refill_buffer := false, thread_stopped := false, channel_list := List.range k,
    format := .CS16, buffer := [0, 0, 0, 0], lut := [], refill_thd := .waiting }

/-- Caller buffers holding the 16-bit value `-1` everywhere. -/
def blank_buffs : Buffs := fun _ _ => .s16 (-1)

/-- Caller buffers for transmit: element `p` of buffer `b` holds `1000 * b + p`. -/
def ramp_buffs : Buffs := fun b p => .s16 (1000 * (b : Int) + (p : Int))

/-- A wait that ends by timeout while the refill thread did nothing. -/
def idle_timeout : Wait := { status := .timeout, steps := [] }

/-- A wait during which the refill thread takes the request and its refill of
the 4-sample buffer for `k` channels completes. -/
def refill_completes (k : Nat) : Wait :=
  { status := .no_timeout,
    steps := [.take_request, .refill_returns (2 * k * 4) (raw_buffer k 4)] }

/-- A transmit engine for CS16 on `k` hardware channels, nothing allocated yet. -/
def tx_engine (k : Nat) : TxState :=
  { buf := none, buffer := [], channel_list := List.range k, format := .CS16 }

/-- Return value of a `recv` call, if it returned. -/
def recv_value (r : Option (RecvReturn × RxState × Buffs)) : Option RecvReturn :=
  r.map fun x => x.1

/-- Engine state after a `recv` call, if it returned. -/
def recv_state (r : Option (RecvReturn × RxState × Buffs)) : Option RxState :=
  r.map fun x => x.2.1

/-- Element `pos` of caller buffer `index` after a `recv` call, if it returned. -/
def recv_out (r : Option (RecvReturn × RxState × Buffs)) (index pos : Nat) : Option Wire :=
  r.map fun x => x.2.2 index pos

/-- The sample `send` left at byte address `a` of the raw buffer, if it returned. -/
def send_raw (r : Except Exn (SendReturn × TxState)) (a : Nat) : Option Int :=
  match r with
  | .ok x => x.2.buf.map fun b => b.mem a
  | .error _ => none

/-! ## Sample converter: proofs -/

theorem shl4_eq (v : Int) : v <<< 4 = v * 16 := by
  have h := Int.shiftLeft_eq_mul_pow v 4
  simpa using h

theorem shr4_eq (x : Int) : x >>> (4 : Nat) = x / 16 := by
  have h := Int.shiftRight_eq_div_pow x 4
  simpa using h

theorem build_lut_length : build_lut.length = 4096 := by
  simp [build_lut]

theorem build_lut_getD (i : Nat) (hi : i < 4096) : build_lut.getD i 0 = lut_entry i := by
  have hlen : i < build_lut.length := by rw [build_lut_length]; exact hi
  rw [List.getD_eq_getElem _ _ hlen]
  simp [build_lut]

theorem lut_index_eq (x : Int) : ((lut_index x : Nat) : Int) = x % 4096 := by
  unfold lut_index int_bits
  have h := Nat.and_pow_two_sub_one_eq_mod (x % 4294967296).toNat 12
  norm_num at h
  rw [h]
  have hnn : (0 : Int) ≤ x % 4294967296 := Int.emod_nonneg _ (by norm_num)
  rw [Int.natCast_mod, Int.toNat_of_nonneg hnn]
  exact Int.emod_emod_of_dvd x (by norm_num)

theorem lut_index_lt (x : Int) : lut_index x < 4096 := by
  have h := lut_index_eq x
  have h2 : x % 4096 < 4096 := Int.emod_lt_of_pos _ (by norm_num)
  omega

theorem native_to_cf32_eq (x : Int) :
    native_to_cf32 build_lut x = (low12_signed x : ℚ) / 2048 := by
  unfold native_to_cf32
  rw [build_lut_getD _ (lut_index_lt x)]
  unfold lut_entry scale
  rw [lut_index_eq x]
  have h : (x % 4096 + 2048) % 4096 - 2048 = low12_signed x := by
    unfold low12_signed
    split <;> omega
  rw [h]
  ring

theorem low12_signed_of_int12 (x : Int) (hx : is_int12 x) : low12_signed x = x := by
  unfold low12_signed
  obtain ⟨h1, h2⟩ := hx
  split <;> omega

theorem cf32_round_trip_exact (x : Int) (hx : is_int12 x) :
    cf32_to_native (native_to_cf32 build_lut x) = x := by
  rw [native_to_cf32_eq, low12_signed_of_int12 x hx]
  unfold cf32_to_native
  have h : ((x : ℚ) / 2048 * 2048) = ((x : Int) : ℚ) := by
    field_simp
  rw [h, Rat.num_intCast, Rat.den_intCast]
  simp only [Nat.cast_one, Int.tdiv_one]
  unfold to_int16
  obtain ⟨h1, h2⟩ := hx
  omega

theorem cs8_round_trip_eq (x : Int) (hx : is_int12 x) : cs8_round_trip x = x - x % 16 := by
  unfold cs8_round_trip cs8_to_native native_to_cs8
  rw [shl4_eq, shr4_eq]
  unfold to_int16 to_int8
  obtain ⟨h1, h2⟩ := hx
  omega

theorem rx_streamer_lut (dev : Option Nat) (channels : List Nat) (args : Kwargs)
    (flag0 stopped0 : Bool) (s : RxState)
    (h : rx_streamer dev .CF32 channels args flag0 stopped0 = .ok s) : s.lut = build_lut := by
  unfold rx_streamer at h
  cases dev with
  | none => simp at h
  | some nb =>
    simp only [bind, Except.bind] at h
    split at h
    · simp at h
    · simp only [Except.ok.injEq] at h
      rw [← h]
      simp

/-- C6: the table the constructor builds for CF32 holds
`(((i + 2048) mod 4096) - 2048) / 2048` at every index `i` in [0, 4095]; for a
16-bit native sample `x` the receive conversion `lut[x & 0x0FFF]` is `s / 2048`
with `s` the low twelve bits of `x` read as two's complement, lies in [-1, 1),
the table has 0 at index 0 and -1 at index 2048, and `x` and `x + 4096` convert
to the same value. -/
theorem lut_centered_wrap (i : Nat) (hi : i < 4096) (x : Int) (hx : is_int16 x)
    (dev : Option Nat) (channels : List Nat) (args : Kwargs) (flag0 stopped0 : Bool)
    (s : RxState) (hs : rx_streamer dev .CF32 channels args flag0 stopped0 = .ok s) :
    s.lut.getD i 0 = ((((i : Int) + 2048) % 4096 - 2048 : Int) : ℚ) / 2048 ∧
    native_to_cf32 s.lut x = (low12_signed x : ℚ) / 2048 ∧
    (-1 ≤ native_to_cf32 s.lut x ∧ native_to_cf32 s.lut x < 1) ∧
    s.lut.getD 0 0 = 0 ∧ s.lut.getD 2048 0 = -1 ∧
    native_to_cf32 s.lut (x + 4096) = native_to_cf32 s.lut x := by
  rw [rx_streamer_lut dev channels args flag0 stopped0 s hs]
  have hlow : -2048 ≤ low12_signed x ∧ low12_signed x < 2048 := by
    unfold low12_signed
    split <;> omega
  have hq1 : (-2048 : ℚ) ≤ (low12_signed x : ℚ) := by exact_mod_cast hlow.1
  have hq2 : (low12_signed x : ℚ) < 2048 := by exact_mod_cast hlow.2
  refine ⟨?_, native_to_cf32_eq x, ⟨?_, ?_⟩, ?_, ?_, ?_⟩
  · rw [build_lut_getD i hi]
    unfold lut_entry scale
    ring
  · rw [native_to_cf32_eq, le_div_iff₀ (by norm_num)]
    linarith
  · rw [native_to_cf32_eq, div_lt_iff₀ (by norm_num)]
    linarith
  · rw [build_lut_getD 0 (by norm_num)]
    norm_num [lut_entry, scale]
  · rw [build_lut_getD 2048 (by norm_num)]
    norm_num [lut_entry, scale]
  · rw [native_to_cf32_eq, native_to_cf32_eq]
    have h : low12_signed (x + 4096) = low12_signed x := by
      unfold low12_signed
      have hm : (x + 4096) % 4096 = x % 4096 := by omega
      rw [hm]
    rw [h]

/-- The hypotheses of `lut_centered_wrap` hold for index 5, sample -3 and the CF32
engine of a two-channel device. -/
theorem lut_centered_wrap_witness :
    (5 < 4096 ∧ is_int16 (-3) ∧
      rx_streamer (some 2) .CF32 [] [] false false = .ok cf32_engine) ∧
    native_to_cf32 cf32_engine.lut (-3) = ((low12_signed (-3) : Int) : ℚ) / 2048 :=
  ⟨⟨by decide, by decide, rfl⟩,
   (lut_centered_wrap 5 (by decide) (-3) (by decide) (some 2) [] [] false false
      cf32_engine rfl).2.1⟩

/-- C7: for a native sample `x` representable in twelve bits, the receive float
conversion followed by the transmit float conversion gives `y` with
`|y - x| <= 1`. -/
theorem cf32_round_trip_within_one (x : Int) (hx : is_int12 x) :
    |cf32_to_native (native_to_cf32 build_lut x) - x| ≤ 1 := by
  rw [cf32_round_trip_exact x hx]
  simp

/-- The round trip bound at the most negative twelve-bit sample. -/
theorem cf32_round_trip_within_one_witness :
    is_int12 (-2048) ∧ |cf32_to_native (native_to_cf32 build_lut (-2048)) - -2048| ≤ 1 :=
  ⟨by decide, cf32_round_trip_within_one (-2048) (by decide)⟩

/-- C8, amended: for native samples `x <= y` representable in twelve bits the
8-bit round trip `r` satisfies `r x <= r y` and `0 <= x - r x < 16`; the 8-bit
values 16, -16, 0 convert to native 256, -256, 0 and these convert back. -/
theorem cs8_round_trip_12bit (x y : Int) (hx : is_int12 x) (hy : is_int12 y) (hxy : x ≤ y) :
    cs8_round_trip x ≤ cs8_round_trip y ∧
    (0 ≤ x - cs8_round_trip x ∧ x - cs8_round_trip x < 16) ∧
    [16, -16, 0].map cs8_to_native = [256, -256, 0] ∧
    [256, -256, 0].map native_to_cs8 = [16, -16, 0] := by
  rw [cs8_round_trip_eq x hx, cs8_round_trip_eq y hy]
  refine ⟨by omega, ⟨by omega, by omega⟩, by decide, by decide⟩

/-- The two ends of the twelve-bit range. -/
theorem cs8_round_trip_12bit_witness :
    (is_int12 (-2048) ∧ is_int12 2047 ∧ (-2048 : Int) ≤ 2047) ∧
    cs8_round_trip (-2048) ≤ cs8_round_trip 2047 :=
  ⟨⟨by decide, by decide, by decide⟩,
   (cs8_round_trip_12bit (-2048) 2047 (by decide) (by decide) (by decide)).1⟩

/-- C8, as stated, fails on 16-bit samples outside the twelve-bit range: 2047 and
2048 are `int16_t` values with `2047 <= 2048`, yet `r 2047 = 2032 > r 2048 = -2048`,
and `2048 - r 2048 = 4096`. -/
theorem cs8_round_trip_16bit_counterexample :
    ¬ (∀ x y : Int, is_int16 x → is_int16 y → x ≤ y →
        cs8_round_trip x ≤ cs8_round_trip y ∧
        (0 ≤ x - cs8_round_trip x ∧ x - cs8_round_trip x < 16)) := by
  intro h
  have h1 := (h 2047 2048 (by decide) (by decide) (by decide)).1
  revert h1
  decide

/-- C5: the constructor on a present device, by the value of `bufflen`.  Absent,
non-numeric, empty and zero give depth 16384.  A negative number passes the
test `bufferLength > 0` after its conversion to `size_t`, and `buffer.reserve`
raises `length_error`; a number too large for `int` makes `std::stoi` raise
`out_of_range`, which the handler for `invalid_argument` does not catch. -/
theorem rx_streamer_bufflen_cases :
    (rx_streamer (some 2) .CS16 [] [] false false).toOption.map get_buffer_size = some 16384 ∧
    (rx_streamer (some 2) .CS16 [] [("bufflen", "abc")] false false).toOption.map
      get_buffer_size = some 16384 ∧
    (rx_streamer (some 2) .CS16 [] [("bufflen", "")] false false).toOption.map
      get_buffer_size = some 16384 ∧
    (rx_streamer (some 2) .CS16 [] [("bufflen", "0")] false false).toOption.map
      get_buffer_size = some 16384 ∧
    (rx_streamer (some 2) .CS16 [] [("bufflen", "-1")] false false).toOption.map
      get_buffer_size = none ∧
    rx_streamer_raises (rx_streamer (some 2) .CS16 [] [("bufflen", "-1")] false false)
      = some .length_error ∧
    rx_streamer_raises (rx_streamer (some 2) .CS16 [] [("bufflen", "99999999999")] false false)
      = some .out_of_range := by
  refine ⟨?_, ?_, ?_, ?_, ?_, ?_, ?_⟩ <;> decide

/-! ## Receive engine: proofs -/

/-- The engine `started_engine 2` is what the constructor with `bufflen = 4`
followed by `start` produces, whatever the two unassigned flags were. -/
theorem started_engine_reachable :
    (rx_streamer (some 2) .CS16 [] [("bufflen", "4")] true true >>= fun s =>
      start s (some (raw_buffer 2 4))) = .ok (started_engine 2) := by
  rfl

theorem wait_loop_idle (s : RxState) (hf : s.please_refill_buffer = true)
    (hs : s.thread_stopped = false) (n : Nat) :
    wait_loop s (List.replicate n idle_timeout) = .blocked := by
  induction n with
  | zero => simp [wait_loop, hf]
  | succ n ih =>
    have hst : idle_timeout.steps = [] := rfl
    simp [List.replicate_succ, wait_loop, hf, hs, hst, ih]

/-- C1, as stated, fails when the buffer is empty before the call: the started
engine has `items_in_buffer = 0`, the call requests a refill, the refill
publishes 4 samples during the wait, and `recv(numElems = 2)` returns 2. -/
theorem recv_exceeds_items_before :
    (started_engine 2).items_in_buffer = 0 ∧
    recv_value (recv (started_engine 2) blank_buffs 2 1 [refill_completes 2])
      = some (.items 2) ∧
    ¬ (2 ≤ min 2 (started_engine 2).items_in_buffer) := by
  decide

/-- C2: the started engine has a refill pending once `recv` has set the request
flag.  Whatever the number of waits that end by timeout with the flag still
set, `recv` has not returned (so it has not returned Timeout); and after one
such timeout a later refill makes the same call return 4 samples. -/
theorem recv_timeout_elapsed_waits_again :
    (started_engine 2).thread_stopped = false ∧
    (recv_request (started_engine 2)).please_refill_buffer = true ∧
    (∀ n, recv (started_engine 2) blank_buffs 4 1 (List.replicate n idle_timeout) = none) ∧
    recv_value (recv (started_engine 2) blank_buffs 4 1 [idle_timeout, refill_completes 2])
      = some (.items 4) := by
  refine ⟨by decide, by decide, ?_, by decide⟩
  intro n
  have hb := wait_loop_idle (recv_request (started_engine 2)) (by decide) (by decide) n
  unfold recv
  rw [if_neg (by decide), hb]

/-- C3: in a state with `thread_stopped` set, `recv` returns Timeout for every
`numElems`, `timeoutUs` and every schedule of waits (none is consumed, so it
returns even when no wait would ever end), and the engine state, with
`please_refill_buffer`, `items_in_buffer` and `byte_offset`, and the caller
buffers are unchanged. -/
theorem recv_stopped_returns_timeout (s : RxState) (buffs : Buffs) (numElems : Nat)
    (timeoutUs : Int) (waits : List Wait) (h : s.thread_stopped = true) :
    recv s buffs numElems timeoutUs waits = some (.timeout, s, buffs) := by
  unfold recv
  rw [if_pos h]

/-- The engine whose refill failed has `thread_stopped` set and `recv` returns
Timeout without any wait. -/
theorem recv_stopped_returns_timeout_witness :
    (thread_step { started_engine 2 with refill_thd := .refilling }
        (.refill_returns (-1) (raw_buffer 2 4))).thread_stopped = true ∧
    recv (thread_step { started_engine 2 with refill_thd := .refilling }
        (.refill_returns (-1) (raw_buffer 2 4))) blank_buffs 8 1 []
      = some (.timeout, thread_step { started_engine 2 with refill_thd := .refilling }
        (.refill_returns (-1) (raw_buffer 2 4)), blank_buffs) :=
  ⟨by decide, recv_stopped_returns_timeout _ blank_buffs 8 1 [] (by decide)⟩

/-- C4: with two channel pairs, the channel at position 2 (I of the second
pair) and sample 0.  The claim places the sample at element `2 * 0 + 2 mod 2 = 0`
of caller buffer 1.  `recv` leaves that element untouched and stores the sample
(104, the first one of channel 2) at element `0 * 2 + 2 = 2`; `send` loads the
native sample of channel 2 (byte address 4 of the raw buffer) from element 2
(value 1002), not from element 0 (value 1000). -/
theorem channel_offset_second_pair :
    recv_value (recv (started_engine 4) blank_buffs 1 1 [refill_completes 4])
      = some (.items 1) ∧
    recv_out (recv (started_engine 4) blank_buffs 1 1 [refill_completes 4]) 1 0
      = some (.s16 (-1)) ∧
    recv_out (recv (started_engine 4) blank_buffs 1 1 [refill_completes 4]) 1 2
      = some (.s16 104) ∧
    ramp_buffs 1 0 = .s16 1000 ∧ ramp_buffs 1 2 = .s16 1002 ∧
    send_raw (send (tx_engine 4) ramp_buffs 1 (some (raw_buffer 4 1)) 8) 4 = some 1002 := by
  decide

/-- C10: the engine constructed with `bufflen = 4`, started, refilled with 4
samples and read once (1 sample) holds `items_in_buffer = 3 <= buffer_size = 4`.
`set_buffer_size(2)` then recreates the raw buffer and records the depth 2 but
keeps `items_in_buffer = 3`, which exceeds it. -/
theorem set_buffer_size_breaks_invariant :
    (recv_state (recv (started_engine 2) blank_buffs 1 1 [refill_completes 2])).map
      (fun s => (s.items_in_buffer, s.buffer_size)) = some (3, 4) ∧
    (recv_state (recv (started_engine 2) blank_buffs 1 1 [refill_completes 2])).map
      (fun s => (set_buffer_size s 2 (some (raw_buffer 2 2))).toOption.map
        (fun t => (t.items_in_buffer, t.buffer_size))) = some (some (3, 2)) ∧
    (recv_state (recv (started_engine 2) blank_buffs 1 1 [refill_completes 2])).map
      (fun s => (reset_buffer s (some (raw_buffer 2 4))).toOption.map
        (fun t => (t.items_in_buffer, t.buffer_size))) = some (some (0, 4)) := by
  decide

/-! ## Copy path of `recv`: proofs -/

/-- The fuel `len + 1` that `channel_read` passes is never exhausted: one more
unit changes nothing once `fuel` exceeds the number of 2-byte slots left. -/
theorem channel_read_loop_fuel (b : IioBuffer) (end_ : Nat) :
    ∀ (fuel src dst : Nat) (stg : List Int), end_ < dst + 2 * fuel →
      channel_read_loop b end_ (fuel + 1) src dst stg = channel_read_loop b end_ fuel src dst stg := by
  intro fuel
  induction fuel with
  | zero =>
    intro src dst stg h
    simp only [channel_read_loop, sample_length]
    rw [if_neg]
    omega
  | succ f ih =>
    intro src dst stg h
    rw [channel_read_loop]
    conv_rhs => rw [channel_read_loop]
    by_cases hg : src < b.buf_end ∧ dst + sample_length ≤ end_
    · rw [if_pos hg, if_pos hg]
      apply ih
      simp only [sample_length]
      omega
    · rw [if_neg hg, if_neg hg]

/-- The fuel `len + 1` that `channel_write` passes is never exhausted either. -/
theorem channel_write_loop_fuel (b : IioBuffer) (stg : List Int) (end_ : Nat) :
    ∀ (fuel dst src : Nat) (mem : Nat → Int), end_ < src + 2 * fuel →
      channel_write_loop b stg end_ (fuel + 1) dst src mem
        = channel_write_loop b stg end_ fuel dst src mem := by
  intro fuel
  induction fuel with
  | zero =>
    intro dst src mem h
    simp only [channel_write_loop, sample_length]
    rw [if_neg]
    omega
  | succ f ih =>
    intro dst src mem h
    rw [channel_write_loop]
    conv_rhs => rw [channel_write_loop]
    by_cases hg : dst < b.buf_end ∧ src + sample_length ≤ end_
    · rw [if_pos hg, if_pos hg]
      apply ih
      simp only [sample_length]
      omega
    · rw [if_neg hg, if_neg hg]

theorem same_data_refl (s : RxState) : same_data s s :=
  ⟨rfl, rfl, rfl, rfl, rfl, rfl⟩

theorem same_data_trans {s t u : RxState} (h1 : same_data s t) (h2 : same_data t u) :
    same_data s u := by
  unfold same_data at h1 h2 ⊢
  refine ⟨?_, ?_, ?_, ?_, ?_, ?_⟩
  · rw [h2.1, h1.1]
  · rw [h2.2.1, h1.2.1]
  · rw [h2.2.2.1, h1.2.2.1]
  · rw [h2.2.2.2.1, h1.2.2.2.1]
  · rw [h2.2.2.2.2.1, h1.2.2.2.2.1]
  · rw [h2.2.2.2.2.2, h1.2.2.2.2.2]

theorem thread_step_take_request (s : RxState) (st : ThreadStep)
    (h : st.is_take_request = true) : same_data s (thread_step s st) := by
  cases st with
  | take_request =>
    by_cases hc : s.refill_thd = .waiting ∧ s.please_refill_buffer = true
    · simp only [thread_step, if_pos hc]
      exact ⟨rfl, rfl, rfl, rfl, rfl, rfl⟩
    · simp only [thread_step, if_neg hc]
      exact same_data_refl s
  | refill_returns ret filled => simp [ThreadStep.is_take_request] at h

theorem thread_steps_take_request (steps : List ThreadStep) :
    ∀ s : RxState, steps.all ThreadStep.is_take_request = true →
      same_data s (steps.foldl thread_step s) := by
  induction steps with
  | nil => intro s _; exact same_data_refl s
  | cons st rest ih =>
    intro s h
    simp only [List.all_cons, Bool.and_eq_true] at h
    rw [List.foldl_cons]
    exact same_data_trans (thread_step_take_request s st h.1) (ih _ h.2)

theorem wait_loop_no_refill (waits : List Wait) :
    ∀ s sw : RxState, (waits.all fun w => w.steps.all ThreadStep.is_take_request) = true →
      wait_loop s waits = .ready sw →
      sw.please_refill_buffer = false ∧ same_data s sw := by
  induction waits with
  | nil =>
    intro s sw _ h
    unfold wait_loop at h
    split at h
    · simp at h
    · rename_i hf
      simp only [WaitOutcome.ready.injEq] at h
      subst h
      exact ⟨by simpa using hf, same_data_refl s⟩
  | cons w ws ih =>
    intro s sw hall h
    simp only [List.all_cons, Bool.and_eq_true] at hall
    unfold wait_loop at h
    split at h
    · simp only at h
      split at h
      · simp at h
      · obtain ⟨h1, h2⟩ := ih _ sw hall.2 h
        exact ⟨h1, same_data_trans (thread_steps_take_request w.steps s hall.1) h2⟩
    · rename_i hf
      simp only [WaitOutcome.ready.injEq] at h
      subst h
      exact ⟨by simpa using hf, same_data_refl s⟩

theorem recv_request_same_data (s : RxState) : same_data s (recv_request s) := by
  by_cases hc : s.please_refill_buffer = false ∧ s.items_in_buffer = 0
  · simp only [recv_request, if_pos hc]
    exact ⟨rfl, rfl, rfl, rfl, rfl, rfl⟩
  · simp only [recv_request, if_neg hc]
    exact same_data_refl s

/-- C1, amended: a `recv` call that returns a sample count `n` has left its wait
loop in some state `s1`; with `c = s1.items_in_buffer`, `n = min(c, numElems)`,
so `n <= numElems` and `n <= c`, and the call lowers `items_in_buffer` from `c`
by `n`.  When no refill is pending and the buffer is not empty at entry, `s1` is
the state before the call whatever the waits would be (the call does not wait);
and whenever no refill returns during the waits of the call, `c` is
`items_in_buffer` as it was before the call.  In both cases
`n <= min(numElems, items_in_buffer before the call)`. -/
theorem recv_count_bound (s : RxState) (buffs : Buffs) (numElems : Nat) (timeoutUs : Int)
    (waits : List Wait) (n : Nat) (s' : RxState) (buffs' : Buffs)
    (h : recv s buffs numElems timeoutUs waits = some (.items n, s', buffs')) :
    ∃ s1, wait_loop (recv_request s) waits = .ready s1 ∧
      n = min s1.items_in_buffer numElems ∧ n ≤ numElems ∧ n ≤ s1.items_in_buffer ∧
      s'.items_in_buffer = s1.items_in_buffer - n ∧
      (s.please_refill_buffer = false → 0 < s.items_in_buffer →
        s1 = s ∧ n ≤ min numElems s.items_in_buffer) ∧
      ((waits.all fun w => w.steps.all ThreadStep.is_take_request) = true →
        s1.items_in_buffer = s.items_in_buffer ∧ n ≤ min numElems s.items_in_buffer) := by
  unfold recv at h
  split at h
  · simp at h
  · split at h
    · simp at h
    · simp at h
    · rename_i s1 hw
      simp only [recv_copy, Option.some.injEq, Prod.mk.injEq, RecvReturn.items.injEq] at h
      obtain ⟨hn, hs', _⟩ := h
      have hle1 : n ≤ s1.items_in_buffer := by rw [← hn]; exact Nat.min_le_left _ _
      have hle2 : n ≤ numElems := by rw [← hn]; exact Nat.min_le_right _ _
      refine ⟨s1, hw, hn.symm, hle2, hle1, ?_, ?_, ?_⟩
      · rw [← hs', ← hn]
      · intro hf hi
        have hreq : recv_request s = s := by
          unfold recv_request
          rw [if_neg]
          intro hc
          omega
        rw [hreq] at hw
        have hs1 : s1 = s := by
          cases waits with
          | nil => simp [wait_loop, hf] at hw; exact hw.symm
          | cons w ws => simp [wait_loop, hf] at hw; exact hw.symm
        refine ⟨hs1, ?_⟩
        rw [← hs1]
        exact le_min hle2 hle1
      · intro hno
        obtain ⟨_, hsd⟩ := wait_loop_no_refill waits _ s1 hno hw
        have hitems : s1.items_in_buffer = s.items_in_buffer :=
          (same_data_trans (recv_request_same_data s) hsd).2.1
        refine ⟨hitems, ?_⟩
        rw [← hitems]
        exact le_min hle2 hle1

/-- A call that returns a count: the started engine, refilled during the wait. -/
theorem recv_count_bound_witness :
    recv (started_engine 2) blank_buffs 2 1 [refill_completes 2]
      = some (.items 2,
          (recv_copy (wait_ready (wait_loop (recv_request (started_engine 2))
            [refill_completes 2]) (started_engine 2)) blank_buffs 2).2.1,
          (recv_copy (wait_ready (wait_loop (recv_request (started_engine 2))
            [refill_completes 2]) (started_engine 2)) blank_buffs 2).2.2) ∧
    2 ≤ 2 :=
  ⟨rfl,
   let ⟨_, _, _, h3, _⟩ :=
     recv_count_bound (started_engine 2) blank_buffs 2 1 [refill_completes 2] 2 _ _ rfl
   h3⟩

end PlutoSDR
